import Mathlib

/-!
# Verification of the cc-mono agent runtime core

A shallow embedding, in Lean 4, of the parts of the `cc-mono` Go repository
that the specification's claims are about:

* the permission subsystem (`pkg/agent` permission manager: pattern
  generation, pattern matching, policy evaluation, risk analysis, rule
  persistence, asynchronous prompting),
* the event bus (`pkg/agent/pubsub.go`),
* the message data model and its JSON round-trip (`pkg/ai`),
* the agent loop and `processStream` (`pkg/agent` loop).

Go strings are modelled as `List Char` (the `GoStr` type below); the
string functions from Go's `strings` and `path/filepath` packages that the
code uses are re-implemented on that type, faithful to their documented
behaviour on the ASCII inputs the permission subsystem works with.
Machine integers (`int`, `int64`) are modelled as `Int`; none of the code
under study relies on overflow.
-/

namespace CcMono

/-! ## Go string model -/

/-- Go strings, modelled as lists of characters. -/
abbrev GoStr : Type := List Char

/-- Embed a Lean string literal as a `GoStr`. -/
def gs (s : String) : GoStr := s.toList

/-- Models `strings.HasPrefix(s, pre)`: `strStarts pre s` is true iff `s`
begins with `pre`. -/
def strStarts : GoStr → GoStr → Bool
  | [], _ => true
  | _ :: _, [] => false
  | p :: ps, c :: cs => p == c && strStarts ps cs

/-- Models `strings.Contains(s, sub)`: true iff `sub` occurs as a
contiguous substring of `s`. -/
def strContainsSub : GoStr → GoStr → Bool
  | [], sub => List.isEmpty sub
  | c :: rest, sub => strStarts sub (c :: rest) || strContainsSub rest sub

/-- Models `strings.Split(s, string(c))` for a one-character separator. -/
def strSplitChar (c : Char) : GoStr → List GoStr
  | [] => [[]]
  | x :: xs =>
    match strSplitChar c xs with
    | [] => [[]]
    | h :: t => if x == c then [] :: h :: t else (x :: h) :: t

/-- The ASCII whitespace characters recognised by `unicode.IsSpace` (the
permission subsystem only ever splits ASCII command strings). -/
def isGoSpace (c : Char) : Bool :=
  c == ' ' || c == '\t' || c == '\n' || c == Char.ofNat 11 || c == Char.ofNat 12 || c == '\r'

/-- Models `strings.Fields(s)` restricted to its first element:
`parts := strings.Fields(cmd); if len(parts) > 0 { parts[0] }`.
Returns `none` when `Fields` returns an empty slice. -/
def firstField (s : GoStr) : Option GoStr :=
  match s.dropWhile isGoSpace with
  | [] => none
  | c :: rest => some ((c :: rest).takeWhile (fun x => !isGoSpace x))

/-- ASCII lower-casing of one character; models `strings.ToLower` on the
ASCII strings the permission subsystem compares. -/
def asciiLower (c : Char) : Char :=
  if 'A' ≤ c ∧ c ≤ 'Z' then Char.ofNat (c.toNat + 32) else c

/-- ASCII upper-casing of one character; models `strings.ToUpper` on a
one-character ASCII string. -/
def asciiUpper (c : Char) : Char :=
  if 'a' ≤ c ∧ c ≤ 'z' then Char.ofNat (c.toNat - 32) else c

/-- Models `strings.ToLower` on ASCII strings. -/
def lowerStr (s : GoStr) : GoStr := s.map asciiLower

/-- Models `strings.ToUpper(toolName[:1]) + toolName[1:]` from
`generatePattern` (with the `len(toolName) > 0` guard of the source). -/
def capitalizeGo : GoStr → GoStr
  | [] => []
  | c :: rest => asciiUpper c :: rest

/-! ## `path/filepath` model (Unix rules, as on the development platform) -/

/-- One step of the lexical cleaning loop of `filepath.Clean`: the stack
(most recent component first) is updated by one path component. Empty
components and `.` are dropped; `..` pops a non-`..` entry, is dropped at
the root of a rooted path, and is kept otherwise. -/
def cleanStep (rooted : Bool) (stack : List GoStr) (comp : GoStr) : List GoStr :=
  if comp = [] ∨ comp = gs "." then stack
  else if comp = gs ".." then
    match stack with
    | [] => if rooted then [] else [gs ".."]
    | top :: rest => if top = gs ".." then gs ".." :: top :: rest else rest
  else comp :: stack

/-- Interleave `/` between path components. -/
def joinSlash : List GoStr → GoStr
  | [] => []
  | [c] => c
  | c :: rest => c ++ gs "/" ++ joinSlash rest

/-- Models `filepath.Clean` (Unix): lexical simplification of a path. -/
def filepathClean (s : GoStr) : GoStr :=
  if s = [] then gs "."
  else
    let rooted := strStarts (gs "/") s
    let out := ((strSplitChar '/' s).foldl (cleanStep rooted) []).reverse
    let body := joinSlash out
    if rooted then gs "/" ++ body
    else if body = [] then gs "." else body

/-- Models `filepath.Dir` (Unix): everything up to and including the final
`/`, then `Clean` (a path with no `/` yields `.`). -/
def filepathDir (s : GoStr) : GoStr :=
  filepathClean ((s.reverse.dropWhile (fun c => c ≠ '/')).reverse)

/-- Models `filepath.IsAbs` (Unix): the path begins with `/`. -/
def filepathIsAbs (s : GoStr) : Bool := strStarts (gs "/") s

/-! ## Permission subsystem data model (`part_012`) -/

/-- The fields of a Go `PermissionRequest` that `generatePattern` and
`AnalyzeRiskLevel` consult.  The `Params map[string]any` of the source is
only ever read through the type assertion `req.Params["command"].(string)`;
`command = none` models a params map whose `"command"` entry is missing or
is not a string.  `RequestID` and `Timestamp` are assigned from the wall
clock and do not influence any evaluated function. -/
structure PermissionRequest where
  toolName : GoStr
  action : GoStr
  resource : GoStr
  command : Option GoStr
  deriving DecidableEq

/-- `PermissionManager.generatePattern` from `part_012`. -/
def generatePattern (req : PermissionRequest) : GoStr :=
  let toolName := lowerStr req.toolName
  let capitalizedName := capitalizeGo toolName
  if toolName = gs "bash" then
    match req.command with
    | some cmd =>
      match firstField cmd with
      | some cmdName => gs "Bash(" ++ cmdName ++ gs ":*)"
      | none => gs "Bash(*)"
    | none => gs "Bash(*)"
  else if toolName = gs "read" then gs "Read(*)"
  else if toolName = gs "write" then
    if filepathIsAbs req.resource then gs "Write(" ++ filepathDir req.resource ++ gs "/*)"
    else gs "Write(*)"
  else if toolName = gs "edit" then
    if filepathIsAbs req.resource then gs "Edit(" ++ filepathDir req.resource ++ gs "/*)"
    else gs "Edit(*)"
  else capitalizedName ++ gs "(*)"

/-- `PermissionManager.matchPattern` from `part_012`: exact equality, or —
when the rule contains `*` — `strings.HasPrefix(reqPattern,
strings.Split(permPattern, "*")[0])`. -/
def matchPattern (reqPattern permPattern : GoStr) : Bool :=
  if reqPattern = permPattern then true
  else if strContainsSub permPattern (gs "*") then
    strStarts ((strSplitChar '*' permPattern).headD []) reqPattern
  else false

/-- `PermissionManager.CheckPermission` from `part_012`.  The Go function
returns `(allowed, needAsk, error)` with a always-`nil` error; the pair
`(false, false)` is auto-deny, `(true, false)` auto-allow and
`(false, true)` must-ask (this is how `executeToolCall` consumes it). -/
def checkPermission (denyPatterns allowPatterns : List GoStr) (req : PermissionRequest) :
    Bool × Bool :=
  let pattern := generatePattern req
  if denyPatterns.any (fun denyPattern => matchPattern pattern denyPattern) then (false, false)
  else if allowPatterns.any (fun allowPattern => matchPattern pattern allowPattern) then (true, false)
  else (false, true)

/-- The dangerous path list of `AnalyzeRiskLevel`. -/
def dangerousPaths : List GoStr :=
  [gs "/etc", gs "/System", gs "/usr/bin", gs "/usr/sbin", gs "/bin", gs "/sbin",
   gs "/.ssh", gs "/.gnupg"]

/-- The dangerous command fragment list of `AnalyzeRiskLevel`. -/
def dangerousCommands : List GoStr :=
  [gs "rm -rf", gs "sudo", gs "chmod", gs "chown", gs "dd", gs "mkfs", gs "fdisk",
   gs "> /dev/"]

/-- The safe read-only command list of `AnalyzeRiskLevel`. -/
def safeCommands : List GoStr :=
  [gs "ls", gs "pwd", gs "echo", gs "cat", gs "head", gs "tail", gs "grep",
   gs "find", gs "which", gs "whoami", gs "date", gs "uname"]

/-- `AnalyzeRiskLevel` from `part_012`.  Note that the dangerous-path loop
tests `strings.HasPrefix(req.Resource, path) || strings.Contains(req.Resource, path)`,
and that the command fragments are searched in `strings.ToLower(cmd)`. -/
def analyzeRiskLevel (req : PermissionRequest) : GoStr :=
  let toolName := lowerStr req.toolName
  if toolName = gs "read" then gs "safe"
  else if dangerousPaths.any
      (fun path => strStarts path req.resource || strContainsSub req.resource path) then
    gs "dangerous"
  else if toolName = gs "bash" then
    match req.command with
    | some cmd =>
      let cmdLower := lowerStr cmd
      if dangerousCommands.any (fun dangerous => strContainsSub cmdLower dangerous) then
        gs "dangerous"
      else
        match firstField cmd with
        | some firstCmd =>
          if safeCommands.any (fun safe => firstCmd = safe) then gs "safe" else gs "medium"
        | none => gs "medium"
    | none => gs "medium"
  else if toolName = gs "write" then gs "medium"
  else if toolName = gs "edit" then gs "medium"
  else gs "safe"

/-! ## String lemmas used to relate the code to the specification's wording -/

theorem strStarts_iff : ∀ p s : GoStr, strStarts p s = true ↔ p <+: s
  | [], s => by simp [strStarts]
  | p :: ps, [] => by simp [strStarts]
  | p :: ps, c :: cs => by
    simp [strStarts, strStarts_iff ps cs, List.cons_prefix_cons, and_comm]

theorem strContainsSub_singleton (c : Char) :
    ∀ s : GoStr, strContainsSub s [c] = true ↔ c ∈ s := by
  intro s
  induction s with
  | nil => simp [strContainsSub]
  | cons d rest ih =>
    simp only [strContainsSub, strStarts, Bool.and_true, Bool.or_eq_true, beq_iff_eq,
      List.mem_cons, ih]

theorem strSplitChar_ne_nil (c : Char) : ∀ s : GoStr, strSplitChar c s ≠ []
  | [] => by simp [strSplitChar]
  | x :: xs => by
    simp only [strSplitChar]
    cases h : strSplitChar c xs with
    | nil => exact absurd h (strSplitChar_ne_nil c xs)
    | cons hd tl =>
      by_cases hx : x == c <;> simp [hx]

theorem strSplitChar_headD (c : Char) :
    ∀ s : GoStr, (strSplitChar c s).headD [] = s.takeWhile (fun x => x ≠ c)
  | [] => rfl
  | x :: xs => by
    have ih := strSplitChar_headD c xs
    simp only [strSplitChar]
    cases h : strSplitChar c xs with
    | nil => exact absurd h (strSplitChar_ne_nil c xs)
    | cons hd tl =>
      rw [h] at ih
      simp only [List.headD_cons] at ih
      by_cases hx : x = c
      · subst hx
        simp [List.takeWhile_cons]
      · simp [hx, List.takeWhile_cons, ih]

/-- The specification's matching relation for C1: a rule matches a request
pattern iff it equals it, or the rule contains `*` and the request pattern
has the rule's literal text up to the first `*` as a prefix. -/
def ruleMatches (rule reqPattern : GoStr) : Prop :=
  rule = reqPattern ∨
    ('*' ∈ rule ∧ rule.takeWhile (fun ch => ch ≠ '*') <+: reqPattern)

theorem matchPattern_iff (reqPattern rule : GoStr) :
    matchPattern reqPattern rule = true ↔ ruleMatches rule reqPattern := by
  unfold matchPattern ruleMatches
  by_cases heq : reqPattern = rule
  · simp [heq]
  · have hne : ¬ rule = reqPattern := fun h => heq h.symm
    simp only [if_neg heq]
    by_cases hstar : strContainsSub rule (gs "*") = true
    · have hmem : '*' ∈ rule := (strContainsSub_singleton '*' rule).mp hstar
      simp only [if_pos hstar, strSplitChar_headD, strStarts_iff]
      simp [hne, hmem]
    · have hmem : ¬ '*' ∈ rule := fun h =>
        hstar ((strContainsSub_singleton '*' rule).mpr h)
      simp [hstar, hne, hmem]

/-- **C1.** `CheckPermission` computes the request's generated pattern and
decides in order: any matching deny rule → auto-deny `(false, false)`;
otherwise any matching allow rule → auto-allow `(true, false)`; otherwise
must-ask `(false, true)`.  A rule matches iff it equals the request
pattern exactly, or it contains `*` and the request pattern has the rule's
literal text up to the first `*` as a prefix. -/
theorem c1_check_permission (denyPatterns allowPatterns : List GoStr)
    (req : PermissionRequest) :
    (∀ pat rule : GoStr, matchPattern pat rule = true ↔ ruleMatches rule pat) ∧
    (checkPermission denyPatterns allowPatterns req = (false, false) ↔
      ∃ rule ∈ denyPatterns, ruleMatches rule (generatePattern req)) ∧
    (checkPermission denyPatterns allowPatterns req = (true, false) ↔
      (¬ ∃ rule ∈ denyPatterns, ruleMatches rule (generatePattern req)) ∧
        ∃ rule ∈ allowPatterns, ruleMatches rule (generatePattern req)) ∧
    (checkPermission denyPatterns allowPatterns req = (false, true) ↔
      (¬ ∃ rule ∈ denyPatterns, ruleMatches rule (generatePattern req)) ∧
        ¬ ∃ rule ∈ allowPatterns, ruleMatches rule (generatePattern req)) := by
  have hd : (denyPatterns.any fun r => matchPattern (generatePattern req) r) = true ↔
      ∃ rule ∈ denyPatterns, ruleMatches rule (generatePattern req) := by
    simp [List.any_eq_true, matchPattern_iff]
  have ha : (allowPatterns.any fun r => matchPattern (generatePattern req) r) = true ↔
      ∃ rule ∈ allowPatterns, ruleMatches rule (generatePattern req) := by
    simp [List.any_eq_true, matchPattern_iff]
  refine ⟨fun pat rule => matchPattern_iff pat rule, ?_, ?_, ?_⟩ <;>
    unfold checkPermission <;>
    by_cases h1 : (denyPatterns.any fun r => matchPattern (generatePattern req) r) = true <;>
    by_cases h2 : (allowPatterns.any fun r => matchPattern (generatePattern req) r) = true <;>
    simp [h1, h2, ← hd, ← ha]

/-! ## C3: risk analysis against the specification's wording -/

/-- A string that starts with `p` also contains `p` as a substring, so the
source's `HasPrefix(r, p) || Contains(r, p)` collapses to `Contains(r, p)`. -/
theorem strStarts_or_contains (p s : GoStr) :
    (strStarts p s || strContainsSub s p) = strContainsSub s p := by
  cases s with
  | nil => cases p <;> simp [strStarts, strContainsSub]
  | cons c rest => simp [strContainsSub, ← Bool.or_assoc]

/-- Claim C3 exactly as stated: `dangerous` requires the resource to
*begin with* a dangerous path (not merely contain one), and the fragments
are searched in the command as written (the claim does not lower-case it).
Tools the claim does not mention fall to the code's final `safe`. -/
def claimedRiskC3 (req : PermissionRequest) : GoStr :=
  let tn := lowerStr req.toolName
  if tn = gs "read" then gs "safe"
  else if (dangerousPaths.any fun path => strStarts path req.resource) ||
      (tn = gs "bash" &&
        (req.command.elim false fun cmd =>
          dangerousCommands.any fun frag => strContainsSub cmd frag)) then
    gs "dangerous"
  else if tn = gs "bash" &&
      (req.command.elim false fun cmd =>
        (firstField cmd).elim false fun tok => safeCommands.any fun safe => tok = safe) then
    gs "safe"
  else if tn = gs "bash" || tn = gs "write" || tn = gs "edit" then gs "medium"
  else gs "safe"

/-- Claim C3 amended no further than the code forces: `dangerous` when the
resource begins with **or contains** one of the dangerous paths, or when
the **lower-cased** Bash command contains one of the fragments; the safe
first-token rule and the `medium` default are unchanged. -/
def claimedRiskAmendedC3 (req : PermissionRequest) : GoStr :=
  let tn := lowerStr req.toolName
  if tn = gs "read" then gs "safe"
  else if (dangerousPaths.any fun path => strContainsSub req.resource path) ||
      (tn = gs "bash" &&
        (req.command.elim false fun cmd =>
          dangerousCommands.any fun frag => strContainsSub (lowerStr cmd) frag)) then
    gs "dangerous"
  else if tn = gs "bash" &&
      (req.command.elim false fun cmd =>
        (firstField cmd).elim false fun tok => safeCommands.any fun safe => tok = safe) then
    gs "safe"
  else if tn = gs "bash" || tn = gs "write" || tn = gs "edit" then gs "medium"
  else gs "safe"

/-- The Bash request `echo /etc` (resource = the command string, as
`extractResource` sets it). -/
def c3CexReq : PermissionRequest :=
  { toolName := gs "Bash"
    action := gs "execute"
    resource := gs "echo /etc"
    command := some (gs "echo /etc") }

/-- **C3, counterexample.** For the Bash command `echo /etc` the code
returns `dangerous` (the resource *contains* `/etc`), while the claim as
stated classifies it `safe` (it does not *begin with* any dangerous path
and its first token is `echo`). -/
theorem c3_counterexample :
    analyzeRiskLevel c3CexReq = gs "dangerous" ∧
      claimedRiskC3 c3CexReq = gs "safe" ∧ gs "dangerous" ≠ gs "safe" := by
  refine ⟨by decide, by decide, by decide⟩

/-- **C3, amended.** `AnalyzeRiskLevel` agrees everywhere with the claim
amended to: `dangerous` when the resource begins with or contains a
dangerous path, or the lower-cased Bash command contains a dangerous
fragment; `safe` for Read and for Bash commands whose first token is in
the safe list; `medium` otherwise for Bash, Write and Edit. -/
theorem c3_risk_amended (req : PermissionRequest) :
    analyzeRiskLevel req = claimedRiskAmendedC3 req := by
  unfold analyzeRiskLevel claimedRiskAmendedC3
  have hpaths :
      (dangerousPaths.any fun path =>
          strStarts path req.resource || strContainsSub req.resource path) =
        (dangerousPaths.any fun path => strContainsSub req.resource path) := by
    simp only [dangerousPaths, List.any_cons, List.any_nil, strStarts_or_contains]
  by_cases hr : lowerStr req.toolName = gs "read"
  · simp [hr]
  · simp only [if_neg hr]
    by_cases hp : (dangerousPaths.any fun path => strContainsSub req.resource path) = true
    · simp [hpaths, hp]
    · simp only [hpaths, hp, if_neg, Bool.false_or]
      by_cases hb : lowerStr req.toolName = gs "bash"
      · cases hc : req.command with
        | none => simp [hb, hc, hp]
        | some cmd =>
          by_cases hfrag :
              (dangerousCommands.any fun frag => strContainsSub (lowerStr cmd) frag) = true
          · simp [hb, hc, hfrag, hp]
          · cases ht : firstField cmd with
            | none => simp [hb, hc, hfrag, ht, hp]
            | some tok =>
              by_cases hsafe : (safeCommands.any fun safe => tok = safe) = true
              · simp [hb, hc, hfrag, ht, hsafe, hp]
              · simp [hb, hc, hfrag, ht, hsafe, hp]
      · have hwb : ¬(gs "write" : GoStr) = gs "bash" := by decide
        have heb : ¬(gs "edit" : GoStr) = gs "bash" := by decide
        by_cases hw : lowerStr req.toolName = gs "write"
        · simp [hb, hw, hp, hwb]
        · by_cases he : lowerStr req.toolName = gs "edit"
          · simp [hb, hw, he, hp, heb]
          · simp [hb, hw, he, hp]

/-! ## C5: pattern generation against the specification's wording -/

/-- Claim C5 as stated, as a partial specification: `some pat` when the
claim prescribes a pattern for the request, `none` where it is silent
(a Bash request whose params carry no command string, or a command with no
whitespace-delimited token). -/
def claimedPatternC5 (req : PermissionRequest) : Option GoStr :=
  let tn := lowerStr req.toolName
  if tn = gs "bash" then
    (req.command.bind firstField).map fun tok => gs "Bash(" ++ tok ++ gs ":*)"
  else if tn = gs "read" then some (gs "Read(*)")
  else if tn = gs "write" ∨ tn = gs "edit" then
    if filepathIsAbs req.resource then
      some (capitalizeGo tn ++ gs "(" ++ filepathDir req.resource ++ gs "/*)")
    else some (capitalizeGo tn ++ gs "(*)")
  else some (capitalizeGo tn ++ gs "(*)")

/-- **C5.** Wherever the claim prescribes a pattern — `Bash(<first
token>:*)` for bash, `Read(*)` for read, `<Name>(<parent dir>/*)` or
`<Name>(*)` for write/edit according to absoluteness of the resource, and
`<Capitalized>(*)` for every other tool — `generatePattern` produces
exactly that pattern. -/
theorem c5_generate_pattern (req : PermissionRequest) (pat : GoStr)
    (h : claimedPatternC5 req = some pat) : generatePattern req = pat := by
  unfold claimedPatternC5 at h
  unfold generatePattern
  by_cases hb : lowerStr req.toolName = gs "bash"
  · simp only [if_pos hb] at h ⊢
    cases hc : req.command with
    | none => simp [hc] at h
    | some cmd =>
      cases ht : firstField cmd with
      | none => simp [hc, ht] at h
      | some tok =>
        simp [hc, ht] at h
        subst h
        simp [hc, ht]
  · simp only [if_neg hb] at h ⊢
    by_cases hr : lowerStr req.toolName = gs "read"
    · simp only [if_pos hr] at h ⊢
      simp only [Option.some.injEq] at h
      subst h; rfl
    · simp only [if_neg hr] at h ⊢
      by_cases hw : lowerStr req.toolName = gs "write"
      · have hwe : lowerStr req.toolName = gs "write" ∨ lowerStr req.toolName = gs "edit" :=
          Or.inl hw
        simp only [if_pos hw, if_pos hwe] at h ⊢
        by_cases habs : filepathIsAbs req.resource = true
        · simp only [if_pos habs, Option.some.injEq] at h ⊢
          subst h; rw [hw]; rfl
        · simp only [if_neg habs, Option.some.injEq] at h ⊢
          subst h; rw [hw]; rfl
      · by_cases he : lowerStr req.toolName = gs "edit"
        · have hwe : lowerStr req.toolName = gs "write" ∨ lowerStr req.toolName = gs "edit" :=
            Or.inr he
          simp only [if_neg hw, if_pos he, if_pos hwe] at h ⊢
          by_cases habs : filepathIsAbs req.resource = true
          · simp only [if_pos habs, Option.some.injEq] at h ⊢
            subst h; rw [he]; rfl
          · simp only [if_neg habs, Option.some.injEq] at h ⊢
            subst h; rw [he]; rfl
        · have hwe : ¬ (lowerStr req.toolName = gs "write" ∨ lowerStr req.toolName = gs "edit") :=
            fun hor => hor.elim hw he
          simp only [if_neg hw, if_neg he, if_neg hwe, Option.some.injEq] at h ⊢
          subst h; rfl

/-- **C5, witness.** The theorem instantiated at one request of each kind. -/
theorem c5_generate_pattern_witness :
    generatePattern ⟨gs "Bash", gs "execute", gs "git status", some (gs "git status")⟩ =
        gs "Bash(git:*)" ∧
    generatePattern ⟨gs "Read", gs "read", gs "/a/b.txt", none⟩ = gs "Read(*)" ∧
    generatePattern ⟨gs "Write", gs "write", gs "/a/b.txt", none⟩ = gs "Write(/a/*)" ∧
    generatePattern ⟨gs "Edit", gs "edit", gs "rel.txt", none⟩ = gs "Edit(*)" ∧
    generatePattern ⟨gs "webSearch", gs "execute", gs "", none⟩ = gs "Websearch(*)" :=
  ⟨c5_generate_pattern _ _ (by decide), c5_generate_pattern _ _ (by decide),
   c5_generate_pattern _ _ (by decide), c5_generate_pattern _ _ (by decide),
   c5_generate_pattern _ _ (by decide)⟩

/-! ## C9: remembering permission decisions (`savePermission`, `part_012`) -/

/-- The `permissions` object of a settings file (`PermissionSettings` in
`part_012`). -/
structure PermissionSettings where
  allow : List GoStr
  deny : List GoStr
  deriving DecidableEq

/-- A settings file on disk as the permission manager reads it: the
optional top-level `permissions` object plus whatever other top-level
fields the file carries.  The Go `Settings` struct declares only
`Permissions`, so those other fields are invisible to it. -/
structure SettingsFile where
  permissions : Option PermissionSettings
  extraFields : List (GoStr × GoStr)
  deriving DecidableEq

/-- `json.Unmarshal(data, settings)` with `settings : *Settings`: only the
`permissions` object is decoded; fields unknown to the struct are ignored. -/
def unmarshalSettings (file : SettingsFile) : Option PermissionSettings := file.permissions

/-- `persistSettings`: `json.MarshalIndent(settings, ...)` then
`os.WriteFile`.  The written file holds exactly the fields of the Go
`Settings` struct, so fields the struct does not declare do not survive
the rewrite. -/
def marshalSettings (permissions : Option PermissionSettings) : SettingsFile :=
  { permissions := permissions, extraFields := [] }

/-- `PermissionManager.savePermission` restricted to its effect on the
chosen settings file (`scope` only selects whether that file is the global
or the project one; the in-memory `allowPatterns`/`denyPatterns` caches
are not part of the file). -/
def savePermission (file : SettingsFile) (pattern : GoStr) (allowed : Bool) : SettingsFile :=
  let settings := unmarshalSettings file
  let permissions := settings.getD { allow := [], deny := [] }
  let permissions' :=
    if allowed then
      if permissions.allow.contains pattern then permissions
      else { permissions with allow := permissions.allow ++ [pattern] }
    else
      if permissions.deny.contains pattern then permissions
      else { permissions with deny := permissions.deny ++ [pattern] }
  marshalSettings (some permissions')

/-- A settings file whose allow list already holds `Read(*)` and which
carries one extra top-level field. -/
def c9CexFile : SettingsFile :=
  { permissions := some { allow := [gs "Read(*)"], deny := [] }
    extraFields := [(gs "theme", gs "dark")] }

/-- **C9, counterexample.** Saving a pattern that is already present does
*not* leave the settings file unchanged: the file is rewritten and its
fields other than `permissions` are dropped. -/
theorem c9_counterexample :
    gs "Read(*)" ∈ ((c9CexFile.permissions).getD { allow := [], deny := [] }).allow ∧
      savePermission c9CexFile (gs "Read(*)") true ≠ c9CexFile := by decide

/-- **C9, amended.** When the generated pattern is already present in the
chosen list, the `permissions` object written back equals the one read (no
pattern is appended) — but the file is rewritten regardless, and only the
`permissions` object survives: every other field is dropped. -/
theorem c9_save_permission_amended (file : SettingsFile) (pattern : GoStr)
    (ps : PermissionSettings) (hfile : file.permissions = some ps) :
    (pattern ∈ ps.allow → (savePermission file pattern true).permissions = file.permissions) ∧
    (pattern ∈ ps.deny → (savePermission file pattern false).permissions = file.permissions) ∧
    (∀ allowed, (savePermission file pattern allowed).extraFields = []) := by
  refine ⟨fun hmem => ?_, fun hmem => ?_, fun allowed => ?_⟩
  · simp [savePermission, unmarshalSettings, marshalSettings, hfile, hmem]
  · simp [savePermission, unmarshalSettings, marshalSettings, hfile, hmem]
  · simp [savePermission, unmarshalSettings, marshalSettings]

/-- **C9, witness.** The amended theorem at the concrete file above, plus
the deny-side at a file whose deny list already holds `Bash(rm:*)`. -/
theorem c9_save_permission_amended_witness :
    (savePermission c9CexFile (gs "Read(*)") true).permissions = c9CexFile.permissions ∧
    (savePermission ⟨some { allow := [], deny := [gs "Bash(rm:*)"] }, []⟩
        (gs "Bash(rm:*)") false).permissions = some { allow := [], deny := [gs "Bash(rm:*)"] } ∧
    (savePermission c9CexFile (gs "Read(*)") true).extraFields = [] := by
  refine ⟨(c9_save_permission_amended c9CexFile (gs "Read(*)") _ rfl).1 (by decide),
    (c9_save_permission_amended ⟨some { allow := [], deny := [gs "Bash(rm:*)"] }, []⟩
      (gs "Bash(rm:*)") _ rfl).2.1 (by decide),
    (c9_save_permission_amended c9CexFile (gs "Read(*)") _ rfl).2.2 true⟩

/-! ## C4: termination of the permission request calls (`part_012`) -/

/-- The fields of a Go `PermissionResponse` that determine the outcome of
a permission request (`RequestID`, `Scope` and `Timestamp` do not affect
the caller's allow/deny decision). -/
structure PermissionResponse where
  allowed : Bool
  remember : Bool
  deriving DecidableEq

/-- The three terminators named by the specification for a blocked
permission request. -/
inductive PermTerminator where
  | response (resp : PermissionResponse)
  | ctxCancelled
  | timeout
  deriving DecidableEq

/-- The `select` that `RequestPermission` blocks on: its only cases are
the response channel and `time.After(5 * time.Minute)`.  The value pairs
the returned `PermissionResponse` with whether the call returns a non-nil
error.  A terminator the `select` has no case for yields `none`: that
event cannot wake the call. -/
def requestPermissionSelect : PermTerminator → Option (PermissionResponse × Bool)
  | .response resp => some (resp, false)
  | .timeout => some ({ allowed := false, remember := false }, true)
  | .ctxCancelled => none

/-- The `select` that `RequestPermissionWithContext` blocks on: its only
cases are the response channel and `ctx.Done()`; there is no timeout
case. -/
def requestPermissionWithContextSelect : PermTerminator → Option (PermissionResponse × Bool)
  | .response resp => some (resp, false)
  | .ctxCancelled => some ({ allowed := false, remember := false }, true)
  | .timeout => none

/-- **C4, counterexample.** The claim says every permission request call
is terminated by any of the three terminators; but context cancellation
cannot wake `RequestPermission` (it takes no context), and the 5-minute
timeout cannot wake `RequestPermissionWithContext` (its `select` has no
timer case). -/
theorem c4_counterexample :
    requestPermissionSelect PermTerminator.ctxCancelled = none ∧
      requestPermissionWithContextSelect PermTerminator.timeout = none := ⟨rfl, rfl⟩

/-- **C4, amended.** `RequestPermission` blocks until a response or the
5-minute timeout (context cancellation is not consulted), while
`RequestPermissionWithContext` blocks until a response or cancellation of
the supplied context (there is no timeout); in both, the non-response
terminator yields a deny (`Allowed = false`) together with an error. -/
theorem c4_request_permission_amended :
    (∀ t, (requestPermissionSelect t).isSome ↔ t ≠ PermTerminator.ctxCancelled) ∧
    (∀ t, (requestPermissionWithContextSelect t).isSome ↔ t ≠ PermTerminator.timeout) ∧
    (∀ resp, requestPermissionSelect (.response resp) = some (resp, false)) ∧
    (∀ resp, requestPermissionWithContextSelect (.response resp) = some (resp, false)) ∧
    (∀ resp isErr, requestPermissionSelect .timeout = some (resp, isErr) →
      resp.allowed = false ∧ isErr = true) ∧
    (∀ resp isErr, requestPermissionWithContextSelect .ctxCancelled = some (resp, isErr) →
      resp.allowed = false ∧ isErr = true) := by
  refine ⟨fun t => ?_, fun t => ?_, fun resp => rfl, fun resp => rfl,
    fun resp isErr h => ?_, fun resp isErr h => ?_⟩
  · cases t <;> simp [requestPermissionSelect]
  · cases t <;> simp [requestPermissionWithContextSelect]
  · simp only [requestPermissionSelect, Option.some.injEq, Prod.mk.injEq] at h
    obtain ⟨h1, h2⟩ := h
    constructor
    · rw [← h1]
    · exact h2.symm
  · simp only [requestPermissionWithContextSelect, Option.some.injEq, Prod.mk.injEq] at h
    obtain ⟨h1, h2⟩ := h
    constructor
    · rw [← h1]
    · exact h2.symm

/-- **C4, witness.** The amended theorem at the concrete deny response,
with the equation hypotheses discharged by `rfl`. -/
theorem c4_request_permission_amended_witness :
    (({ allowed := false, remember := false } : PermissionResponse).allowed = false ∧
      (true : Bool) = true) ∧
    (({ allowed := false, remember := false } : PermissionResponse).allowed = false ∧
      (true : Bool) = true) :=
  ⟨c4_request_permission_amended.2.2.2.2.1 { allowed := false, remember := false } true rfl,
   c4_request_permission_amended.2.2.2.2.2 { allowed := false, remember := false } true rfl⟩

/-! ## C6 and C10: the event bus (`pkg/agent/pubsub.go`) -/

/-- A buffered Go channel as the event bus owns them: the capacity it was
made with, the queued values (oldest first) and whether `close` has been
called on it. -/
structure BusChan (α : Type) where
  capacity : Nat
  buffer : List α
  isClosed : Bool
  deriving DecidableEq

/-- `EventBus` from `pubsub.go`: the registered listener channels and the
closed flag.  The element type is a parameter; the source instantiates it
at its `AgentEvent` interface. -/
structure EventBus (α : Type) where
  listeners : List (BusChan α)
  closed : Bool
  deriving DecidableEq

/-- `NewEventBus`. -/
def newEventBus (α : Type) : EventBus α := { listeners := [], closed := false }

/-- `EventBus.Subscribe`: on a closed bus, return a fresh unbuffered
channel that is immediately closed and register nothing; otherwise create
a channel with the requested buffer, append it to `listeners` and return
it.  The result is the updated bus together with the returned channel. -/
def subscribe (bus : EventBus α) (bufferSize : Nat) : EventBus α × BusChan α :=
  if bus.closed then (bus, { capacity := 0, buffer := [], isClosed := true })
  else
    let ch : BusChan α := { capacity := bufferSize, buffer := [], isClosed := false }
    ({ bus with listeners := bus.listeners ++ [ch] }, ch)

/-- The non-blocking `select { case listener <- event: default: }` of
`Publish`: the event is queued when the buffer has room, and dropped for
this listener otherwise. -/
def trySend (ch : BusChan α) (event : α) : BusChan α :=
  if ch.buffer.length < ch.capacity then { ch with buffer := ch.buffer ++ [event] } else ch

/-- `EventBus.Publish`: a no-op once the bus is closed, otherwise one
non-blocking send per listener. -/
def publish (bus : EventBus α) (event : α) : EventBus α :=
  if bus.closed then bus
  else { bus with listeners := bus.listeners.map fun listener => trySend listener event }

/-- `EventBus.Close`: idempotent; closes every listener channel and drops
the listener list (`bus.listeners = nil`). -/
def closeBus (bus : EventBus α) : EventBus α :=
  if bus.closed then bus else { listeners := [], closed := true }

/-- `EventBus.ListenerCount`. -/
def listenerCount (bus : EventBus α) : Nat := bus.listeners.length

/-- **C6.** `Publish` performs exactly one non-blocking send per current
subscriber: the subscriber set is unchanged, a subscriber with free buffer
space receives the event at the back of its buffer, a subscriber with a
full buffer is left untouched (the event is dropped for it alone), and
after `Close` a publish is a silent no-op.  Never blocking is what the
total function `trySend` models: each send either queues or drops,
unconditionally. -/
theorem c6_publish_non_blocking {α : Type} (bus : EventBus α) (event : α) :
    (bus.closed = true → publish bus event = bus) ∧
    (bus.closed = false →
      listenerCount (publish bus event) = listenerCount bus ∧
      ∀ i : Nat,
        (publish bus event).listeners[i]? =
          (bus.listeners[i]?).map fun ch =>
            if ch.buffer.length < ch.capacity then { ch with buffer := ch.buffer ++ [event] }
            else ch) ∧
    publish (closeBus bus) event = closeBus bus := by
  refine ⟨fun hclosed => ?_, fun hopen => ?_, ?_⟩
  · simp [publish, hclosed]
  · refine ⟨by simp [publish, hopen, listenerCount], fun i => ?_⟩
    simp [publish, hopen, List.getElem?_map, trySend]
  · by_cases hclosed : bus.closed = true
    · simp [closeBus, publish, hclosed]
    · simp only [Bool.not_eq_true] at hclosed
      simp [closeBus, publish, hclosed]

/-- **C6, witness.** A bus with a full one-slot subscriber and an empty
two-slot subscriber: publishing keeps both registered, drops the event for
the full one and delivers it to the other; publishing after close is a
no-op. -/
theorem c6_publish_non_blocking_witness :
    listenerCount (publish
        ({ listeners := [{ capacity := 1, buffer := [7], isClosed := false },
                         { capacity := 2, buffer := [], isClosed := false }],
           closed := false } : EventBus Nat) 9) = 2 ∧
    (publish ({ listeners := [{ capacity := 1, buffer := [7], isClosed := false },
                              { capacity := 2, buffer := [], isClosed := false }],
                closed := false } : EventBus Nat) 9).listeners[0]? =
      some { capacity := 1, buffer := [7], isClosed := false } ∧
    (publish ({ listeners := [{ capacity := 1, buffer := [7], isClosed := false },
                              { capacity := 2, buffer := [], isClosed := false }],
                closed := false } : EventBus Nat) 9).listeners[1]? =
      some { capacity := 2, buffer := [9], isClosed := false } ∧
    publish (closeBus ({ listeners := [{ capacity := 1, buffer := [7], isClosed := false }],
                         closed := false } : EventBus Nat)) 9 =
      closeBus { listeners := [{ capacity := 1, buffer := [7], isClosed := false }],
                 closed := false } := by
  obtain ⟨-, h2, -⟩ := c6_publish_non_blocking
    ({ listeners := [{ capacity := 1, buffer := [7], isClosed := false },
                     { capacity := 2, buffer := [], isClosed := false }],
       closed := false } : EventBus Nat) 9
  obtain ⟨hlen, hget⟩ := h2 rfl
  refine ⟨hlen, ?_, ?_, ?_⟩
  · rw [hget 0]; decide
  · rw [hget 1]; decide
  · exact (c6_publish_non_blocking
      ({ listeners := [{ capacity := 1, buffer := [7], isClosed := false }],
         closed := false } : EventBus Nat) 9).2.2

/-- **C10.** Subscribing to an already-closed bus registers nothing: the
bus (and hence `ListenerCount`) is unchanged, and the returned channel is
already closed with an empty buffer — since it is not in `listeners`, no
publish ever reaches it, so a receive on it completes immediately by
reporting closure and no event is ever delivered. -/
theorem c10_subscribe_closed {α : Type} (bus : EventBus α) (bufferSize : Nat)
    (hclosed : bus.closed = true) :
    (subscribe bus bufferSize).1 = bus ∧
    listenerCount (subscribe bus bufferSize).1 = listenerCount bus ∧
    (subscribe bus bufferSize).2.isClosed = true ∧
    (subscribe bus bufferSize).2.buffer = [] := by
  refine ⟨?_, ?_, ?_, ?_⟩ <;> simp [subscribe, hclosed]

/-- **C10, witness.** Subscribing to a freshly closed bus. -/
theorem c10_subscribe_closed_witness :
    (subscribe (closeBus (newEventBus Nat)) 10).1 = closeBus (newEventBus Nat) ∧
    listenerCount (subscribe (closeBus (newEventBus Nat)) 10).1 =
      listenerCount (closeBus (newEventBus Nat)) ∧
    (subscribe (closeBus (newEventBus Nat)) 10).2.isClosed = true ∧
    (subscribe (closeBus (newEventBus Nat)) 10).2.buffer = [] :=
  c10_subscribe_closed (closeBus (newEventBus Nat)) 10 rfl

/-! ## Message data model and its JSON form (`pkg/ai`, `part_009`)

Messages are marshalled through `encoding/json` into a type-tagged JSON
document.  JSON documents are modelled by `Json` below; numbers are
restricted to integers because every numeric message field is an `int`
(token counts, timestamps).  The `map[string]any` tool-call params and the
`any` details travel through marshalling as opaque JSON values, which is
exactly how this model carries them. -/

/-- A JSON document. -/
inductive Json where
  | null
  | bool (b : Bool)
  | num (n : Int)
  | str (s : String)
  | arr (items : List Json)
  | obj (fields : List (String × Json))

/-- Is this document the JSON (or Go interface) `null`? -/
def Json.isNull : Json → Bool
  | .null => true
  | _ => false

theorem Json.isNull_iff (j : Json) : j.isNull = true ↔ j = .null := by
  cases j <;> simp [Json.isNull]

/-- Token usage (`ai.Usage`). -/
structure Usage where
  inputTokens : Int
  outputTokens : Int
  totalTokens : Int
  deriving DecidableEq

/-- `ai.ImageSource`; `sourceType` is the struct field named `type`. -/
structure ImageSource where
  sourceType : String
  url : String
  data : String
  mediaType : String
  deriving DecidableEq

/-- `ai.ToolCall` (a content variant).  `params = none` models a nil
`map[string]any`, which marshals to JSON `null`. -/
structure ToolCall where
  id : String
  name : String
  params : Option (List (String × Json))

/-- `ai.Content`: the tagged union of the four content variants.  The Go
structs carry their `Type` discriminator as data; the constructors
`NewTextContent` … always set it to the canonical tag, which the inductive
makes implicit. -/
inductive Content where
  | text (text : String)
  | thinking (thinking : String)
  | toolCall (tc : ToolCall)
  | image (source : ImageSource)

/-- `ai.Message`: the tagged union User / Assistant / ToolResult, with the
fields of the corresponding Go structs (their `Type` tag implicit). -/
inductive Message where
  | user (content : List Content) (timestamp : Int)
  | assistant (content : List Content) (api provider model : String)
      (usage : Usage) (stopReason : String) (errorMessage : String) (timestamp : Int)
  | toolResult (toolCallId toolName : String) (content : List Content)
      (details : Json) (isError : Bool) (timestamp : Int)

/-- Marshalling of `ai.Usage` (three plain `int` fields). -/
def marshalUsage (u : Usage) : Json :=
  .obj [("input_tokens", .num u.inputTokens), ("output_tokens", .num u.outputTokens),
        ("total_tokens", .num u.totalTokens)]

/-- Marshalling of `ai.ImageSource` (`url` and `data` are `omitempty`). -/
def marshalImageSource (s : ImageSource) : Json :=
  .obj ([("type", .str s.sourceType)] ++
    (if s.url = "" then [] else [("url", .str s.url)]) ++
    (if s.data = "" then [] else [("data", .str s.data)]) ++
    [("media_type", .str s.mediaType)])

/-- Marshalling of the tool-call params map: a nil map marshals to `null`. -/
def marshalParams : Option (List (String × Json)) → Json
  | none => .null
  | some fields => .obj fields

/-- `json.Marshal` on each content variant (all four use the default
struct marshalling of `encoding/json`, tag field included). -/
def marshalContent : Content → Json
  | .text t => .obj [("type", .str "text"), ("text", .str t)]
  | .thinking t => .obj [("type", .str "thinking"), ("thinking", .str t)]
  | .toolCall tc =>
    .obj [("type", .str "tool_call"), ("id", .str tc.id), ("name", .str tc.name),
          ("params", marshalParams tc.params)]
  | .image src => .obj [("type", .str "image"), ("source", marshalImageSource src)]

/-- `MarshalMessage` (each variant's custom `MarshalJSON` from `part_009`:
the content list is marshalled element-wise, `error_message` and `details`
are `omitempty`, everything else is emitted). -/
def marshalMessage : Message → Json
  | .user content timestamp =>
    .obj [("content", .arr (content.map marshalContent)), ("type", .str "user"),
          ("timestamp", .num timestamp)]
  | .assistant content api provider model usage stopReason errorMessage timestamp =>
    .obj ([("content", .arr (content.map marshalContent)), ("type", .str "assistant"),
           ("api", .str api), ("provider", .str provider), ("model", .str model),
           ("usage", marshalUsage usage), ("stop_reason", .str stopReason)] ++
          (if errorMessage = "" then [] else [("error_message", .str errorMessage)]) ++
          [("timestamp", .num timestamp)])
  | .toolResult toolCallId toolName content details isError timestamp =>
    .obj ([("content", .arr (content.map marshalContent)), ("type", .str "tool_result"),
           ("tool_call_id", .str toolCallId), ("tool_name", .str toolName)] ++
          (if details.isNull then [] else [("details", details)]) ++
          [("is_error", .bool isError), ("timestamp", .num timestamp)])

/-- First-match lookup of a field in a JSON object body (`encoding/json`
field matching; marshalled documents never repeat a key). -/
def jsonLookup : List (String × Json) → String → Option Json
  | [], _ => none
  | (k, v) :: rest, key => if k = key then some v else jsonLookup rest key

/-- Field access on a JSON document. -/
def Json.getField (j : Json) (key : String) : Option Json :=
  match j with
  | .obj fields => jsonLookup fields key
  | _ => none

/-- Decode a `string` struct field: a missing field or JSON `null` leaves
the zero value `""`, a string decodes to itself, any other value is an
`UnmarshalTypeError`. -/
def getStrField (j : Json) (key : String) : Option String :=
  match j.getField key with
  | none => some ""
  | some .null => some ""
  | some (.str s) => some s
  | some _ => none

/-- Decode an `int` struct field (missing/`null` → `0`). -/
def getIntField (j : Json) (key : String) : Option Int :=
  match j.getField key with
  | none => some 0
  | some .null => some 0
  | some (.num n) => some n
  | some _ => none

/-- Decode a `bool` struct field (missing/`null` → `false`). -/
def getBoolField (j : Json) (key : String) : Option Bool :=
  match j.getField key with
  | none => some false
  | some .null => some false
  | some (.bool b) => some b
  | some _ => none

/-- Decode the `usage` struct field (missing/`null` → zero `Usage`). -/
def getUsageField (j : Json) (key : String) : Option Usage :=
  match j.getField key with
  | none => some { inputTokens := 0, outputTokens := 0, totalTokens := 0 }
  | some .null => some { inputTokens := 0, outputTokens := 0, totalTokens := 0 }
  | some (.obj fields) =>
    match getIntField (.obj fields) "input_tokens", getIntField (.obj fields) "output_tokens",
        getIntField (.obj fields) "total_tokens" with
    | some i, some o, some t => some { inputTokens := i, outputTokens := o, totalTokens := t }
    | _, _, _ => none
  | some _ => none

/-- Decode the `params map[string]any` field (missing/`null` → nil map). -/
def getParamsField (j : Json) (key : String) : Option (Option (List (String × Json))) :=
  match j.getField key with
  | none => some none
  | some .null => some none
  | some (.obj fields) => some (some fields)
  | some _ => none

/-- Decode the `source ImageSource` field (missing/`null` → zero value). -/
def getImageSourceField (j : Json) (key : String) : Option ImageSource :=
  match j.getField key with
  | none => some { sourceType := "", url := "", data := "", mediaType := "" }
  | some .null => some { sourceType := "", url := "", data := "", mediaType := "" }
  | some (.obj fields) =>
    match getStrField (.obj fields) "type", getStrField (.obj fields) "url",
        getStrField (.obj fields) "data", getStrField (.obj fields) "media_type" with
    | some st, some u, some d, some mt =>
      some { sourceType := st, url := u, data := d, mediaType := mt }
    | _, _, _, _ => none
  | some _ => none

/-- Decode the `details any` field: missing or `null` is a nil interface,
any other value decodes to itself. -/
def getDetailsField (j : Json) : Option Json :=
  match j.getField "details" with
  | none => some .null
  | some v => some v

/-- `UnmarshalContent` from `part_009`: dispatch on the `type` tag, then
decode the corresponding struct. -/
def unmarshalContent (j : Json) : Option Content :=
  match getStrField j "type" with
  | none => none
  | some t =>
    if t = "text" then (getStrField j "text").map Content.text
    else if t = "thinking" then (getStrField j "thinking").map Content.thinking
    else if t = "tool_call" then
      match getStrField j "id", getStrField j "name", getParamsField j "params" with
      | some i, some n, some p => some (.toolCall { id := i, name := n, params := p })
      | _, _, _ => none
    else if t = "image" then (getImageSourceField j "source").map Content.image
    else none

/-- The element loop of `unmarshalContents` from `part_009`: decode each
element with `UnmarshalContent`; the first failure fails the whole list. -/
def unmarshalContentList : List Json → Option (List Content)
  | [] => some []
  | item :: rest =>
    match unmarshalContent item with
    | none => none
    | some c =>
      match unmarshalContentList rest with
      | none => none
      | some cs => some (c :: cs)

/-- Decode the `content` field (`unmarshalContents` from `part_009`): a
missing field or `null` leaves the empty slice; otherwise the element
loop above runs. -/
def unmarshalContentsField (j : Json) : Option (List Content) :=
  match j.getField "content" with
  | none => some []
  | some .null => some []
  | some (.arr items) => unmarshalContentList items
  | some _ => none

/-- `UnmarshalMessage` from `part_009`: read the `type` tag, then decode
the corresponding concrete message struct (via its `UnmarshalJSON`, which
decodes the content list element-wise and every other field by the
`encoding/json` rules modelled above). -/
def unmarshalMessage (j : Json) : Option Message :=
  match getStrField j "type" with
  | none => none
  | some t =>
    if t = "user" then
      match unmarshalContentsField j, getIntField j "timestamp" with
      | some content, some ts => some (.user content ts)
      | _, _ => none
    else if t = "assistant" then
      match unmarshalContentsField j, getStrField j "api", getStrField j "provider",
          getStrField j "model", getUsageField j "usage", getStrField j "stop_reason",
          getStrField j "error_message", getIntField j "timestamp" with
      | some content, some api, some provider, some model, some usage, some stopReason,
          some errorMessage, some ts =>
        some (.assistant content api provider model usage stopReason errorMessage ts)
      | _, _, _, _, _, _, _, _ => none
    else if t = "tool_result" then
      match getStrField j "tool_call_id", getStrField j "tool_name", unmarshalContentsField j,
          getDetailsField j, getBoolField j "is_error", getIntField j "timestamp" with
      | some callId, some name, some content, some details, some isError, some ts =>
        some (.toolResult callId name content details isError ts)
      | _, _, _, _, _, _ => none
    else none

theorem unmarshal_marshal_content (c : Content) :
    unmarshalContent (marshalContent c) = some c := by
  cases c with
  | text t => rfl
  | thinking t => rfl
  | toolCall tc =>
    obtain ⟨i, n, p⟩ := tc
    cases p with
    | none => rfl
    | some fields => rfl
  | image src =>
    obtain ⟨st, u, d, mt⟩ := src
    by_cases hu : u = "" <;> by_cases hd : d = "" <;>
      simp [marshalContent, marshalImageSource, unmarshalContent, getImageSourceField,
        getStrField, Json.getField, jsonLookup, hu, hd]

theorem unmarshal_marshal_contents (cs : List Content) :
    unmarshalContentList (cs.map marshalContent) = some cs := by
  induction cs with
  | nil => rfl
  | cons c rest ih =>
    simp [unmarshalContentList, unmarshal_marshal_content, ih]

/-- **C8.** For every message of the User, Assistant or ToolResult
variant, with any mix of Text, Thinking, ToolCall and Image content items,
unmarshalling the JSON produced by marshalling it yields the message
back. -/
theorem c8_message_roundtrip (m : Message) :
    unmarshalMessage (marshalMessage m) = some m := by
  cases m with
  | user content timestamp =>
    simp [marshalMessage, unmarshalMessage, getStrField, getIntField, Json.getField,
      jsonLookup, unmarshalContentsField, unmarshal_marshal_contents]
  | assistant content api provider model usage stopReason errorMessage timestamp =>
    obtain ⟨i, o, t⟩ := usage
    by_cases herr : errorMessage = "" <;>
      simp [marshalMessage, unmarshalMessage, getStrField, getIntField, getUsageField,
        marshalUsage, Json.getField, jsonLookup, unmarshalContentsField,
        unmarshal_marshal_contents, herr]
  | toolResult toolCallId toolName content details isError timestamp =>
    by_cases hdet : details = Json.null
    · subst hdet
      simp [marshalMessage, unmarshalMessage, getStrField, getIntField, getBoolField,
        getDetailsField, Json.getField, jsonLookup, unmarshalContentsField,
        unmarshal_marshal_contents, Json.isNull]
    · have hnull : details.isNull = false := by
        rcases h : details.isNull with _ | _
        · rfl
        · exact absurd ((Json.isNull_iff details).mp h) hdet
      simp [marshalMessage, unmarshalMessage, getStrField, getIntField, getBoolField,
        getDetailsField, Json.getField, jsonLookup, unmarshalContentsField,
        unmarshal_marshal_contents, hnull]

/-! ## Agent state, stream processing and the loop (`pkg/agent`, `part_015`)

`processStream` consumes the LLM event stream, folding deltas into the
text/thinking accumulators, mirroring the partial message into the
state's streaming cursor, and collecting tool calls; afterwards it reads
`stream.Error()` and the terminal result, extracts completed tool calls
from the result's content, and executes them.  The event publishes to the
(lossy) event bus do not feed back into any state and are elided here;
message IDs and `CreatedAt` stamps come from `time.Now()` and are elided
likewise (timestamps inside built messages are fixed at `0`). -/

/-- `AgentMessage` (`pkg/agent/types.go`), reduced to its payload: the
`ID`/`CreatedAt` envelope is wall-clock data that no claim depends on. -/
structure AgentMessage where
  message : Message

/-- The fields of `AgentState` that the loop and `processStream` touch.
The streaming cursor `streamMessage` starts as the zero Go value,
modelled `none`; `SetStreamMessage` always stores a message (`some`).
`modelProvider`/`modelId` are the fields of `state.GetModel()` that
`processStream` reads. -/
structure AgentState where
  messages : List AgentMessage
  isStreaming : Bool
  streamMessage : Option AgentMessage
  pendingToolCalls : List String
  modelProvider : String
  modelId : String

/-- `AgentState.AddPendingToolCall`: insertion into the
`map[string]bool`-backed pending set. -/
def addPendingToolCall (pending : List String) (id : String) : List String :=
  if id ∈ pending then pending else pending ++ [id]

/-- `ai.AssistantMessageEvent`, as the `processStream` switch consumes it:
one constructor per event type, carrying the fields that type reads (the
Go struct is one product type whose other fields are ignored per type). -/
inductive StreamEvent where
  | start
  | contentDelta (contentType : String) (textDelta : String) (thinkingDelta : String)
  | toolCallEvt (toolCall : Option ToolCall)
  | usageEvt (usage : Option Usage)
  | endEvt (stopReason : String)
  | errorEvt (error : String)

/-- The accumulators of `processStream`. -/
structure StreamAcc where
  textContent : String
  thinkingContent : String
  toolCalls : List ToolCall
  usage : Usage

/-- The zero-valued accumulators at loop entry. -/
def initStreamAcc : StreamAcc :=
  { textContent := "", thinkingContent := "", toolCalls := [],
    usage := { inputTokens := 0, outputTokens := 0, totalTokens := 0 } }

/-- The partial assistant message `processStream` stores in the streaming
cursor on each content delta: the non-empty accumulators as content,
`"streaming"` as api, the state's model coordinates, the accumulated
usage and `end_turn`. -/
def buildStreamMessage (st : AgentState) (acc : StreamAcc) : AgentMessage :=
  { message := Message.assistant
      ((if acc.textContent ≠ "" then [Content.text acc.textContent] else []) ++
        (if acc.thinkingContent ≠ "" then [Content.thinking acc.thinkingContent] else []))
      "streaming" st.modelProvider st.modelId acc.usage "end_turn" "" 0 }

/-- The event loop of `processStream` (lines 396–459 of `part_015`).
Before handling each event the steering check runs: when steering is
enabled and the steering queue is non-empty the stream is closed and the
loop breaks (third component `true`).  An error event returns the error
(fourth component); otherwise the loop runs to channel close. -/
def processEvents (enableSteering steeringNonEmpty : Bool) :
    List StreamEvent → AgentState → StreamAcc →
      AgentState × StreamAcc × Bool × Option String
  | [], st, acc => (st, acc, false, none)
  | event :: rest, st, acc =>
    if enableSteering && steeringNonEmpty then (st, acc, true, none)
    else
      match event with
      | .start => processEvents enableSteering steeringNonEmpty rest st acc
      | .contentDelta contentType textDelta thinkingDelta =>
        let acc' :=
          if contentType = "text" then
            { acc with textContent := acc.textContent ++ textDelta }
          else if contentType = "thinking" then
            { acc with thinkingContent := acc.thinkingContent ++ thinkingDelta }
          else acc
        processEvents enableSteering steeringNonEmpty rest
          { st with streamMessage := some (buildStreamMessage st acc') } acc'
      | .toolCallEvt toolCall =>
        match toolCall with
        | some tc =>
          processEvents enableSteering steeringNonEmpty rest
            { st with pendingToolCalls := addPendingToolCall st.pendingToolCalls tc.id }
            { acc with toolCalls := acc.toolCalls ++ [tc] }
        | none => processEvents enableSteering steeringNonEmpty rest st acc
      | .usageEvt usage =>
        match usage with
        | some u =>
          processEvents enableSteering steeringNonEmpty rest st { acc with usage := u }
        | none => processEvents enableSteering steeringNonEmpty rest st acc
      | .endEvt _ => processEvents enableSteering steeringNonEmpty rest st acc
      | .errorEvt msg => (st, acc, false, some msg)

/-- What `processStream` observes of the stream: the events received
before the channel closes, the value of `stream.Error()` after the loop,
and the terminal result read from `stream.Result()`. -/
structure StreamData where
  events : List StreamEvent
  errAfter : Option String
  result : Message

/-- The content list of a message. -/
def Message.contentItems : Message → List Content
  | .user content _ => content
  | .assistant content _ _ _ _ _ _ _ => content
  | .toolResult _ _ content _ _ _ => content

/-- The post-loop extraction of completed tool calls from the terminal
result's content (`content.(ai.ToolCall)` per item). -/
def finalToolCallsOf (result : Message) : List ToolCall :=
  result.contentItems.filterMap fun c =>
    match c with
    | .toolCall tc => some tc
    | _ => none

/-- The outcome of `processStream`: the state after the deferred
`SetIsStreaming(false)` ran, whether the steering branch closed the
stream, and — unless an error ended the turn — the assistant message and
the tool-result messages, in dispatch order. -/
structure ProcessOutcome where
  state : AgentState
  closedStream : Bool
  success : Option (AgentMessage × List Message)

/-- `processStream` (`part_015` lines 377–501).  `steeringNonEmpty` is
the value of `!agentContext.SteeringQueue.IsEmpty()` while the loop runs
(the queue is only pushed to from outside; its contents at loop entry are
what the checks observe).  `exec` stands for the per-call outcome of
`executeToolCalls` — permission gating and hook wrapping behind one tool
call each; the Go results slice is indexed by dispatch order, which the
`map` preserves.  Tool-call counts beyond `maxToolCalls` fail the turn
before anything executes. -/
def processStream (enableSteering : Bool) (maxToolCalls : Nat) (steeringNonEmpty : Bool)
    (stream : StreamData) (exec : ToolCall → Message) (st : AgentState) : ProcessOutcome :=
  let st0 := { st with isStreaming := true }
  match processEvents enableSteering steeringNonEmpty stream.events st0 initStreamAcc with
  | (st1, acc, closedEarly, eventErr) =>
    match eventErr with
    | some _ =>
      { state := { st1 with isStreaming := false }, closedStream := closedEarly,
        success := none }
    | none =>
      match stream.errAfter with
      | some _ =>
        { state := { st1 with isStreaming := false }, closedStream := closedEarly,
          success := none }
      | none =>
        let finalToolCalls := finalToolCallsOf stream.result
        let st2 := { st1 with
          pendingToolCalls :=
            finalToolCalls.foldl
              (fun pending (tc : ToolCall) => addPendingToolCall pending tc.id)
              st1.pendingToolCalls }
        let toolCalls := if finalToolCalls.length > 0 then finalToolCalls else acc.toolCalls
        if toolCalls.length > maxToolCalls then
          { state := { st2 with isStreaming := false }, closedStream := closedEarly,
            success := none }
        else
          { state := { st2 with isStreaming := false }, closedStream := closedEarly,
            success := some ({ message := stream.result }, toolCalls.map exec) }

/-- The two message queues hanging off the turn's `AgentContext`. -/
structure LoopQueues where
  steering : List AgentMessage
  followUp : List AgentMessage

/-- The tail of one `AgentLoop` iteration after `processStream` succeeds
(`part_015` lines 332–371): append the assistant message, append the tool
results, drain the follow-up queue into history (FIFO), and decide
whether to loop again — only drained follow-ups or non-empty tool
results continue the loop. -/
def agentLoopStep (st : AgentState) (queues : LoopQueues) (assistant : AgentMessage)
    (toolResults : List Message) : AgentState × LoopQueues × Bool :=
  let st1 := { st with
    messages := st.messages ++ [assistant] ++
      toolResults.map (fun toolResult => ({ message := toolResult } : AgentMessage)) }
  let st2 := { st1 with messages := st1.messages ++ queues.followUp }
  let queues' := { queues with followUp := [] }
  let shouldContinue := !queues.followUp.isEmpty || !toolResults.isEmpty
  (st2, queues', shouldContinue)

/-- One iteration of the outer `AgentLoop`: process the stream, then on
success run the iteration tail; `none` models the loop returning the
stream-processing error. -/
def agentTurn (enableSteering : Bool) (maxToolCalls : Nat) (stream : StreamData)
    (exec : ToolCall → Message) (st : AgentState) (queues : LoopQueues) :
    Option (AgentState × LoopQueues × Bool) :=
  let outcome := processStream enableSteering maxToolCalls (!queues.steering.isEmpty)
    stream exec st
  match outcome.success with
  | none => none
  | some (assistant, toolResults) => some (agentLoopStep outcome.state queues assistant toolResults)

/-! ## C7: streaming flag and cursor after `processStream` -/

/-- The event loop never clears the streaming cursor: once it holds a
message, it still does after any sequence of events. -/
theorem processEvents_streamMessage_isSome (enableSteering steeringNonEmpty : Bool) :
    ∀ (events : List StreamEvent) (st : AgentState) (acc : StreamAcc),
      st.streamMessage.isSome = true →
      (processEvents enableSteering steeringNonEmpty events st acc).1.streamMessage.isSome
        = true := by
  intro events
  induction events with
  | nil => intro st acc h; simpa [processEvents] using h
  | cons event rest ih =>
    intro st acc h
    cases hcond : (enableSteering && steeringNonEmpty) with
    | true => simpa [processEvents, hcond] using h
    | false =>
      cases event with
      | start => simpa [processEvents, hcond] using ih st acc h
      | contentDelta contentType textDelta thinkingDelta =>
        simp only [processEvents, hcond, Bool.false_eq_true, if_false]
        exact ih _ _ (by simp)
      | toolCallEvt toolCall =>
        cases toolCall with
        | some tc =>
          simp only [processEvents, hcond, Bool.false_eq_true, if_false]
          exact ih _ _ (by simpa using h)
        | none => simpa [processEvents, hcond] using ih st acc h
      | usageEvt usage =>
        cases usage with
        | some u =>
          simp only [processEvents, hcond, Bool.false_eq_true, if_false]
          exact ih _ _ (by simpa using h)
        | none => simpa [processEvents, hcond] using ih st acc h
      | endEvt stopReason => simpa [processEvents, hcond] using ih st acc h
      | errorEvt msg => simpa [processEvents, hcond] using h

/-- The stream that delivers one `Hi` text delta and then a plain-text
terminal result. -/
def c7CexStream : StreamData :=
  { events := [StreamEvent.contentDelta "text" "Hi" ""]
    errAfter := none
    result := Message.assistant [Content.text "Hi"] "api" "prov" "model-1"
      { inputTokens := 5, outputTokens := 1, totalTokens := 6 } "end_turn" "" 0 }

/-- A fresh agent state. -/
def c7CexState : AgentState :=
  { messages := [], isStreaming := false, streamMessage := none,
    pendingToolCalls := [], modelProvider := "prov", modelId := "model-1" }

/-- **C7, counterexample.** A successful run that processed one text
delta: afterwards `IsStreaming` is `false` but the streaming cursor is
*not* empty — the `non-empty iff IsStreaming` invariant fails, because
`processStream` never clears the cursor. -/
theorem c7_counterexample :
    (processStream false 50 false c7CexStream (fun _ => Message.user [] 0)
        c7CexState).success.isSome = true ∧
    (processStream false 50 false c7CexStream (fun _ => Message.user [] 0)
        c7CexState).state.isStreaming = false ∧
    (processStream false 50 false c7CexStream (fun _ => Message.user [] 0)
        c7CexState).state.streamMessage.isSome = true :=
  ⟨rfl, rfl, rfl⟩

/-- **C7, amended.** After `processStream` returns (successfully or not),
`IsStreaming` is `false` — the deferred `SetIsStreaming(false)` runs on
every return path — but the streaming cursor is *not* cleared: it is
never emptied by `processStream`, so the `non-empty iff IsStreaming`
invariant does not hold. -/
theorem c7_stream_state_amended (enableSteering : Bool) (maxToolCalls : Nat)
    (steeringNonEmpty : Bool) (stream : StreamData) (exec : ToolCall → Message)
    (st : AgentState) :
    (processStream enableSteering maxToolCalls steeringNonEmpty stream exec
        st).state.isStreaming = false ∧
    (st.streamMessage.isSome = true →
      (processStream enableSteering maxToolCalls steeringNonEmpty stream exec
          st).state.streamMessage.isSome = true) := by
  unfold processStream
  rcases hpe : processEvents enableSteering steeringNonEmpty stream.events
      { st with isStreaming := true } initStreamAcc with ⟨st1, acc, closedEarly, eventErr⟩
  have hmono : st.streamMessage.isSome = true → st1.streamMessage.isSome = true := by
    intro h
    have hrun := processEvents_streamMessage_isSome enableSteering steeringNonEmpty
      stream.events { st with isStreaming := true } initStreamAcc (by simpa using h)
    rw [hpe] at hrun
    exact hrun
  simp only [hpe]
  cases eventErr with
  | some e => exact ⟨rfl, hmono⟩
  | none =>
    cases herr : stream.errAfter with
    | some e => exact ⟨rfl, hmono⟩
    | none =>
      by_cases hmax :
          (if (finalToolCallsOf stream.result).length > 0 then finalToolCallsOf stream.result
            else acc.toolCalls).length > maxToolCalls
      · simp only [if_pos hmax]
        exact ⟨by trivial, hmono⟩
      · simp only [if_neg hmax]
        exact ⟨by trivial, hmono⟩

/-- An idle stream: no events, no error, a bare user message as result. -/
def c7WitnessStream : StreamData :=
  { events := [], errAfter := none, result := Message.user [] 0 }

/-- A state whose streaming cursor already holds a message. -/
def c7WitnessState : AgentState :=
  { messages := [], isStreaming := true,
    streamMessage := some { message := Message.user [] 0 },
    pendingToolCalls := [], modelProvider := "prov", modelId := "model-1" }

/-- **C7, amended, witness.** The amended theorem at a state that already
holds a cursor message and a stream with no events. -/
theorem c7_stream_state_amended_witness :
    (processStream false 50 false c7WitnessStream (fun _ => Message.user [] 0)
        c7WitnessState).state.isStreaming = false ∧
    (processStream false 50 false c7WitnessStream (fun _ => Message.user [] 0)
        c7WitnessState).state.streamMessage.isSome = true :=
  ⟨(c7_stream_state_amended false 50 false c7WitnessStream (fun _ => Message.user [] 0)
      c7WitnessState).1,
   (c7_stream_state_amended false 50 false c7WitnessStream (fun _ => Message.user [] 0)
      c7WitnessState).2 rfl⟩

/-! ## C2: steering during stream consumption -/

/-- With steering enabled and the steering queue non-empty, the event loop
closes the stream and breaks before handling any event. -/
theorem processEvents_steering (event : StreamEvent) (rest : List StreamEvent)
    (st : AgentState) (acc : StreamAcc) :
    processEvents true true (event :: rest) st acc = (st, acc, true, none) := by
  simp [processEvents]

/-- Under a steering interrupt on a non-empty event stream, the stream is
closed. -/
theorem processStream_steering_closed (maxToolCalls : Nat) (stream : StreamData)
    (exec : ToolCall → Message) (st : AgentState) (hevents : stream.events ≠ []) :
    (processStream true maxToolCalls true stream exec st).closedStream = true := by
  cases hev : stream.events with
  | nil => exact absurd hev hevents
  | cons e rest =>
    unfold processStream
    rw [hev]
    dsimp only
    rw [processEvents_steering]
    cases stream.errAfter with
    | some e2 => rfl
    | none =>
      dsimp only
      split <;> (first | rfl | (split <;> rfl))

/-- Under a steering interrupt, the returned state's history is the
incoming history: `processStream` appends nothing to it. -/
theorem processStream_steering_state (maxToolCalls : Nat) (stream : StreamData)
    (exec : ToolCall → Message) (st : AgentState) (hevents : stream.events ≠ []) :
    (processStream true maxToolCalls true stream exec st).state.messages = st.messages := by
  cases hev : stream.events with
  | nil => exact absurd hev hevents
  | cons e rest =>
    unfold processStream
    rw [hev]
    dsimp only
    rw [processEvents_steering]
    cases stream.errAfter with
    | some e2 => rfl
    | none =>
      dsimp only
      split <;> (first | rfl | (split <;> rfl))

/-- Under a steering interrupt, a post-loop stream error still fails the
turn. -/
theorem processStream_steering_err_success (maxToolCalls : Nat) (stream : StreamData)
    (exec : ToolCall → Message) (st : AgentState) (hevents : stream.events ≠ [])
    (e : String) (herr : stream.errAfter = some e) :
    (processStream true maxToolCalls true stream exec st).success = none := by
  cases hev : stream.events with
  | nil => exact absurd hev hevents
  | cons ev rest =>
    unfold processStream
    rw [hev]
    dsimp only
    rw [processEvents_steering, herr]

/-- Under a steering interrupt, the tool calls of the turn are exactly
those of the terminal result: no event was consumed, so the accumulated
list is empty. -/
theorem processStream_steering_toolCalls (stream : StreamData) :
    (if (finalToolCallsOf stream.result).length > 0 then finalToolCallsOf stream.result
      else initStreamAcc.toolCalls) = finalToolCallsOf stream.result := by
  by_cases hl : (finalToolCallsOf stream.result).length > 0
  · simp [hl]
  · have h0 : (finalToolCallsOf stream.result).length = 0 := Nat.eq_zero_of_not_pos hl
    simp [hl, initStreamAcc, List.length_eq_zero.mp h0]

/-- Under a steering interrupt, more result tool calls than
`maxToolCalls` fail the turn. -/
theorem processStream_steering_over_success (maxToolCalls : Nat) (stream : StreamData)
    (exec : ToolCall → Message) (st : AgentState) (hevents : stream.events ≠ [])
    (herr : stream.errAfter = none)
    (hmax : (finalToolCallsOf stream.result).length > maxToolCalls) :
    (processStream true maxToolCalls true stream exec st).success = none := by
  cases hev : stream.events with
  | nil => exact absurd hev hevents
  | cons ev rest =>
    unfold processStream
    rw [hev]
    dsimp only
    rw [processEvents_steering, herr]
    dsimp only
    simp only [processStream_steering_toolCalls, if_pos hmax]

/-- Under a steering interrupt with no stream error and an admissible
tool-call count, the turn succeeds with the terminal result as assistant
message and the result's tool calls executed in dispatch order. -/
theorem processStream_steering_success (maxToolCalls : Nat) (stream : StreamData)
    (exec : ToolCall → Message) (st : AgentState) (hevents : stream.events ≠ [])
    (herr : stream.errAfter = none)
    (hmax : ¬ (finalToolCallsOf stream.result).length > maxToolCalls) :
    (processStream true maxToolCalls true stream exec st).success =
      some ({ message := stream.result }, (finalToolCallsOf stream.result).map exec) := by
  cases hev : stream.events with
  | nil => exact absurd hev hevents
  | cons ev rest =>
    unfold processStream
    rw [hev]
    dsimp only
    rw [processEvents_steering, herr]
    dsimp only
    simp only [processStream_steering_toolCalls, if_neg hmax]

/-- The stream that delivers one `Hi` text delta and then a plain-text
terminal result (the steering scenario of the specification, §8). -/
def c2CexStream : StreamData :=
  { events := [StreamEvent.contentDelta "text" "Hi" ""]
    errAfter := none
    result := Message.assistant [Content.text "Hi"] "api" "prov" "model-1"
      { inputTokens := 5, outputTokens := 1, totalTokens := 6 } "end_turn" "" 0 }

/-- The enqueued steering message. -/
def c2SteerMsg : AgentMessage :=
  { message := Message.user [Content.text "stop and say done"] 0 }

/-- A fresh agent state for the steering scenario. -/
def c2CexState : AgentState :=
  { messages := [], isStreaming := false, streamMessage := none,
    pendingToolCalls := [], modelProvider := "prov", modelId := "model-1" }

/-- The state the turn actually ends in: only the assistant message was
appended. -/
def c2CexFinalState : AgentState :=
  { messages := [{ message := c2CexStream.result }], isStreaming := false,
    streamMessage := none, pendingToolCalls := [], modelProvider := "prov",
    modelId := "model-1" }

/-- **C2, counterexample.** With steering enabled, a non-empty steering
queue and no follow-ups, the turn ends with the steering message still
queued and absent from history, and `shouldContinue = false`: the loop
does not start a next turn at all, so the steering message never becomes
a user prompt. -/
theorem c2_counterexample :
    agentTurn true 50 c2CexStream (fun _ => Message.user [] 0) c2CexState
        { steering := [c2SteerMsg], followUp := [] } =
      some (c2CexFinalState, { steering := [c2SteerMsg], followUp := [] }, false) ∧
    c2SteerMsg ∉ c2CexFinalState.messages := by
  constructor
  · rfl
  · intro hmem
    simp only [c2CexFinalState, List.mem_singleton] at hmem
    simp [c2SteerMsg, c2CexStream] at hmem

/-- **C2, amended.** When steering is enabled and the steering queue is
non-empty while events arrive, `processStream` closes the stream and
breaks out of the event loop — but the enqueued steering message is *not*
routed into the agent state's message history: the loop appends only the
assistant message, the tool results and the drained follow-ups, leaves
the steering queue untouched, and starts another turn only when there
were follow-ups or tool results. -/
theorem c2_steering_amended (maxToolCalls : Nat) (stream : StreamData)
    (exec : ToolCall → Message) (st : AgentState) (queues : LoopQueues)
    (hsteer : queues.steering ≠ []) (hevents : stream.events ≠ []) :
    (processStream true maxToolCalls (!queues.steering.isEmpty) stream exec
        st).closedStream = true ∧
    ∀ st' queues' cont,
      agentTurn true maxToolCalls stream exec st queues = some (st', queues', cont) →
        queues'.steering = queues.steering ∧
        st'.messages = st.messages ++ [{ message := stream.result }] ++
          ((finalToolCallsOf stream.result).map fun tc =>
            ({ message := exec tc } : AgentMessage)) ++ queues.followUp ∧
        cont = (!queues.followUp.isEmpty ||
          !((finalToolCallsOf stream.result).map exec).isEmpty) := by
  have hne : queues.steering.isEmpty = false := by
    cases hq : queues.steering with
    | nil => exact absurd hq hsteer
    | cons a l => rfl
  constructor
  · rw [hne, Bool.not_false]
    exact processStream_steering_closed maxToolCalls stream exec st hevents
  · intro st' queues' cont h
    unfold agentTurn at h
    rw [hne, Bool.not_false] at h
    dsimp only at h
    cases herr : stream.errAfter with
    | some e =>
      rw [processStream_steering_err_success maxToolCalls stream exec st hevents e herr] at h
      simp at h
    | none =>
      by_cases hmax : (finalToolCallsOf stream.result).length > maxToolCalls
      · rw [processStream_steering_over_success maxToolCalls stream exec st hevents
          herr hmax] at h
        simp at h
      · rw [processStream_steering_success maxToolCalls stream exec st hevents
          herr hmax] at h
        simp only [agentLoopStep, Option.some.injEq, Prod.mk.injEq] at h
        obtain ⟨hst, hq, hcont⟩ := h
        subst hst
        subst hq
        subst hcont
        refine ⟨rfl, ?_, rfl⟩
        rw [processStream_steering_state maxToolCalls stream exec st hevents]
        simp [List.map_map, List.append_assoc]

/-- **C2, amended, witness.** The amended theorem at the concrete
steering scenario above. -/
theorem c2_steering_amended_witness :
    (processStream true 50
        (!([c2SteerMsg] : List AgentMessage).isEmpty) c2CexStream
        (fun _ => Message.user [] 0) c2CexState).closedStream = true ∧
    ({ steering := [c2SteerMsg], followUp := [] } : LoopQueues).steering =
      [c2SteerMsg] ∧
    c2CexFinalState.messages = c2CexState.messages ++
      [{ message := c2CexStream.result }] ++
      ((finalToolCallsOf c2CexStream.result).map fun tc =>
        ({ message := (fun _ => Message.user [] 0) tc } : AgentMessage)) ++
      ([] : List AgentMessage) ∧
    false = (!([] : List AgentMessage).isEmpty ||
      !((finalToolCallsOf c2CexStream.result).map (fun _ => Message.user [] 0)).isEmpty) := by
  have h := c2_steering_amended 50 c2CexStream (fun _ => Message.user [] 0) c2CexState
    { steering := [c2SteerMsg], followUp := [] } (by simp) (by simp [c2CexStream])
  obtain ⟨h1, h2⟩ := h
  have h3 := h2 c2CexFinalState { steering := [c2SteerMsg], followUp := [] } false rfl
  exact ⟨h1, h3.1, h3.2.1, h3.2.2⟩
